import Mathlib

/-!
Shallow embedding of the `medford-group/ase-espresso` repository
(`src/mongo.py`, `src/vibespresso.py`, `src/espsite.py`) together with
proofs deciding the specification claims about it.

Modelling conventions:
* Python floats are modelled exactly by `PyFloat`: a finite rational, or one
  of the non-finite values `nan`, `inf`, `ninf`.  Arithmetic and comparisons
  follow IEEE semantics on these symbolic values; finite arithmetic is exact
  rational arithmetic.
* Mongo documents (Python `OrderedDict`s) are modelled as ordered association
  lists `List (String × BVal)`; `dict.update` is `pyUpdate`, item assignment
  is `setKeyB`.
* External collaborators that the repository merely calls are modelled as
  parameters: the SHA1-of-JSON fingerprint of `hashlib`/`ase.io.jsonio`
  becomes a function parameter `H : Doc → String`, atomic masses become
  `massOf : String → PyFloat`, and `spglib.get_spacegroup` becomes
  `spg : AtomicStructure → String`.  The value round trip
  `json.loads(ase.io.jsonio.encode ·)` is modelled as the identity on the
  modelled value domain, and ASE's `todict`/`dict2constraint` pair for
  constraints is modelled as storing the constraint dictionary itself.
-/

/-- Exact model of a Python float: a finite rational or a non-finite value. -/
inductive PyFloat where
  | fin (q : ℚ)
  | nan
  | inf
  | ninf
deriving DecidableEq, Repr

namespace PyFloat

/-- Python `<` on floats: any comparison involving `nan` is false. -/
def lt : PyFloat → PyFloat → Bool
  | fin a, fin b => a < b
  | fin _, inf => true
  | ninf, fin _ => true
  | ninf, inf => true
  | _, _ => false

/-- Python `<=` on floats: any comparison involving `nan` is false. -/
def le : PyFloat → PyFloat → Bool
  | fin a, fin b => a ≤ b
  | fin _, inf => true
  | ninf, fin _ => true
  | ninf, ninf => true
  | ninf, inf => true
  | inf, inf => true
  | _, _ => false

/-- IEEE negation. -/
def neg : PyFloat → PyFloat
  | fin q => fin (-q)
  | nan => nan
  | inf => ninf
  | ninf => inf

/-- IEEE addition on the modelled values (`inf + ninf = nan`). -/
def add : PyFloat → PyFloat → PyFloat
  | nan, _ => nan
  | _, nan => nan
  | inf, ninf => nan
  | ninf, inf => nan
  | inf, _ => inf
  | _, inf => inf
  | ninf, _ => ninf
  | _, ninf => ninf
  | fin a, fin b => fin (a + b)

/-- IEEE subtraction. -/
def sub (a b : PyFloat) : PyFloat := add a (neg b)

/-- IEEE multiplication (`inf * 0 = nan`, sign rules otherwise). -/
def mul : PyFloat → PyFloat → PyFloat
  | nan, _ => nan
  | _, nan => nan
  | fin a, fin b => fin (a * b)
  | inf, fin b => if 0 < b then inf else if b < 0 then ninf else nan
  | ninf, fin b => if 0 < b then ninf else if b < 0 then inf else nan
  | fin a, inf => if 0 < a then inf else if a < 0 then ninf else nan
  | fin a, ninf => if 0 < a then ninf else if a < 0 then inf else nan
  | inf, inf => inf
  | inf, ninf => ninf
  | ninf, inf => ninf
  | ninf, ninf => inf

/-- IEEE absolute value (`abs nan = nan`). -/
def pabs : PyFloat → PyFloat
  | fin q => fin |q|
  | nan => nan
  | inf => inf
  | ninf => inf

end PyFloat

/-- A 3-vector of floats (an atomic position, momentum, or cell row). -/
abbrev Vec3 := PyFloat × PyFloat × PyFloat

/-- A 3×3 cell matrix given by its three rows. -/
abbrev Cell3 := Vec3 × Vec3 × Vec3

/-- Determinant of a 3×3 matrix, the exact counterpart of
`numpy.linalg.det` on the cell. -/
def det3 (c : Cell3) : PyFloat :=
  let (r1, r2, r3) := c
  let (a, b, cc) := r1
  let (d, e, f) := r2
  let (g, h, i) := r3
  PyFloat.add
    (PyFloat.sub (PyFloat.mul a (PyFloat.sub (PyFloat.mul e i) (PyFloat.mul f h)))
      (PyFloat.mul b (PyFloat.sub (PyFloat.mul d i) (PyFloat.mul f g))))
    (PyFloat.mul cc (PyFloat.sub (PyFloat.mul d h) (PyFloat.mul e g)))

/-- Python's builtin `max` over a list (first element is the initial
candidate, replaced whenever a later item compares strictly greater);
`none` models the `ValueError` raised on an empty sequence. -/
def pymax : List PyFloat → Option PyFloat
  | [] => none
  | h :: t => some (t.foldl (fun acc x => if PyFloat.lt acc x then x else acc) h)

/-- A value stored in a Mongo document (the JSON/BSON value domain
actually produced by `mongo.py`). -/
inductive BVal where
  | num (x : PyFloat)
  | int (n : Int)
  | str (s : String)
  | bool (b : Bool)
  | arr (l : List BVal)
  | obj (l : List (String × BVal))
  | time (t : Nat)
  | null

/-- A Mongo document: an ordered association list, modelling `OrderedDict`. -/
abbrev Doc := List (String × BVal)

/-- `d[k] = v` on an ordered dictionary: replace the value at an existing
key in place, otherwise append the new binding at the end. -/
def setKeyB : Doc → String → BVal → Doc
  | [], k, v => [(k, v)]
  | a :: t, k, v => if a.1 = k then (k, v) :: t else a :: setKeyB t k v

/-- One step of `dict.update`: install a single binding. -/
def updateOne (d : Doc) (kv : String × BVal) : Doc := setKeyB d kv.1 kv.2

/-- `d.update(kwargs)` on ordered dictionaries. -/
def pyUpdate (d kw : Doc) : Doc := kw.foldl updateOne d

/-- String-valued dictionary used for the espresso keyword arguments of
`vibespresso` (`self.arg`). -/
abbrev SDict := List (String × String)

/-- Item assignment on the keyword-argument dictionary. -/
def setKeyS : SDict → String → String → SDict
  | [], k, v => [(k, v)]
  | a :: t, k, v => if a.1 = k then (k, v) :: t else a :: setKeyS t k v

/-- One atom of an `ase.Atoms` object, with the fields `mongo.py` reads. -/
structure PyAtom where
  symbol : String
  position : Vec3
  tag : Int
  charge : PyFloat
  momentum : Vec3
  magmom : PyFloat
deriving DecidableEq, Repr

/-- The `ase.Atoms` data read and written by the codec: atoms, cell,
periodic flags, the free-form `info` mapping (modelled with string values)
and the constraint dictionaries (each constraint is modelled by the
dictionary its `todict` produces; `dict2constraint` is its inverse). -/
structure AtomicStructure where
  atoms : List PyAtom
  cell : Cell3
  pbc : Bool × Bool × Bool
  info : List (String × String)
  constraints : List (List (String × String))
deriving DecidableEq, Repr

/-- The attached calculator as `mongo_doc` observes it: the optional
`todict` dictionary, identification strings, the `calculation_required`
answers for each quantity, the computed quantities, and the BEEF ensemble
flags and values. -/
structure CalcModel where
  hasTodict : Bool
  todictDoc : Doc
  module : String
  className : String
  requiresEnergy : Bool
  requiresForces : Bool
  requiresStress : Bool
  energy : PyFloat
  beefensemble : Bool
  printensemble : Bool
  beefEnsemble : List PyFloat
  forces : List Vec3
  stress : List PyFloat

/-- The result record attached to a structure, following the
specification's `CalculationResult` data model: optional energy, forces,
stress and ensemble energies. -/
structure CalculationResult where
  energy : Option PyFloat
  forces : Option (List Vec3)
  stress : Option (List PyFloat)
  beefensemble : Option (List PyFloat)

/-- The `CalculationResult` held by an attached calculator: a quantity is
present exactly when the calculator does not flag it as requiring
recomputation (the condition under which `mongo_doc` embeds it), and the
ensemble energies are present when additionally both BEEF flags are set. -/
def calcResult (c : CalcModel) : CalculationResult :=
  { energy := if c.requiresEnergy then none else some c.energy
    forces := if c.requiresForces then none else some c.forces
    stress := if c.requiresStress then none else some c.stress
    beefensemble :=
      if !c.requiresEnergy && (c.beefensemble && c.printensemble) then
        some c.beefEnsemble
      else none }

/-- Serialize a 3-vector. -/
def vec3B (v : Vec3) : BVal := .arr [.num v.1, .num v.2.1, .num v.2.2]

/-- The per-atom dictionary built by `mongo_atoms_doc` (field order as in
the source; `index` is the atom's position in the sequence). -/
def atomB (i : Nat) (a : PyAtom) : BVal :=
  .obj [("symbol", .str a.symbol),
        ("position", vec3B a.position),
        ("tag", .int a.tag),
        ("index", .int i),
        ("charge", .num a.charge),
        ("momentum", vec3B a.momentum),
        ("magmom", .num a.magmom)]

/-- Serialize the atom list, enumerating indices from `i`. -/
def atomsB (i : Nat) : List PyAtom → List BVal
  | [] => []
  | a :: t => atomB i a :: atomsB (i + 1) t

/-- Serialize the cell matrix. -/
def cellB (c : Cell3) : BVal := .arr [vec3B c.1, vec3B c.2.1, vec3B c.2.2]

/-- Serialize the periodic-boundary flags. -/
def pbcB (p : Bool × Bool × Bool) : BVal := .arr [.bool p.1, .bool p.2.1, .bool p.2.2]

/-- Serialize a string-valued mapping (the `info` metadata or one
constraint dictionary). -/
def strMapB (m : List (String × String)) : BVal :=
  .obj (m.map fun p => (p.1, .str p.2))

/-- `sum(...)` over floats (starts from `0` as Python's `sum` does). -/
def sumPF (l : List PyFloat) : PyFloat := l.foldl PyFloat.add (.fin 0)

/-- First-occurrence deduplication of the symbol list, modelling the
iteration over `set(syms)` (whose order Python leaves unspecified). -/
def dedupSyms (l : List String) : List String := l.dedup

/-- `sym: syms.count(sym)` for each symbol, keyed in first-occurrence
order as a Python dict comprehension produces. -/
def symbolCounts (syms : List String) : Doc :=
  (dedupSyms syms).map fun s => (s, .int (syms.count s : Int))

/-- `mongo_atoms_doc` from `src/mongo.py`: the ordered dictionary of an
`Atoms` object, with the redundant search fields appended, including the
cell volume only when the cell determinant is positive.  The final
`json.loads(encode(d))` of the source is modelled as the identity on the
value domain. -/
def mongo_atoms_doc (massOf : String → PyFloat) (spg : AtomicStructure → String)
    (s : AtomicStructure) : Doc :=
  [("atoms", .arr (atomsB 0 s.atoms)),
   ("cell", cellB s.cell),
   ("pbc", pbcB s.pbc),
   ("info", strMapB s.info),
   ("constraints", .arr (s.constraints.map strMapB))]
  ++ [("natoms", .int (s.atoms.length : Int))]
  ++ (if PyFloat.lt (.fin 0) (det3 s.cell) then
        [("volume", .num (PyFloat.pabs (det3 s.cell)))]
      else [])
  ++ [("mass", .num (sumPF (s.atoms.map fun a => massOf a.symbol))),
      ("chemical_symbols", .arr ((dedupSyms (s.atoms.map PyAtom.symbol)).map .str)),
      ("symbol_counts", .obj (symbolCounts (s.atoms.map PyAtom.symbol))),
      ("spacegroup", .str (spg s))]

/-- The calculator sub-document: the calculator's `todict` output (empty
when the calculator has none), with `module` and `class` then assigned. -/
def calcDoc (c : CalcModel) : Doc :=
  setKeyB (setKeyB (if c.hasTodict then c.todictDoc else []) "module" (.str c.module))
    "class" (.str c.className)

/-- Flatten a force array to the list of its components
(`f.flatten()`). -/
def flatVecs : List Vec3 → List PyFloat
  | [] => []
  | v :: t => v.1 :: v.2.1 :: v.2.2 :: flatVecs t

/-- The energy entries of the results sub-document: present when the
calculator does not require an energy recomputation, with the BEEF
ensemble appended when both flags are set. -/
def energySeg (c : CalcModel) : Doc :=
  if c.requiresEnergy then []
  else
    ("energy", .num c.energy) ::
      (if c.beefensemble && c.printensemble then
        [("beefensemble", .arr (c.beefEnsemble.map .num))]
      else [])

/-- The force entries of the results sub-document; `none` models the
`ValueError` of `max` on an empty array. -/
def forcesSeg (c : CalcModel) : Option Doc :=
  if c.requiresForces then some []
  else
    (pymax ((flatVecs c.forces).map PyFloat.pabs)).map fun m =>
      [("forces", .arr (c.forces.map vec3B)), ("fmax", .num m)]

/-- The stress entries of the results sub-document. -/
def stressSeg (c : CalcModel) : Option Doc :=
  if c.requiresStress then some []
  else
    (pymax ((c.stress.map PyFloat.pabs))).map fun m =>
      [("stress", .arr (c.stress.map .num)), ("smax", .num m)]

/-- The `results` sub-document assembled by `mongo_doc` (energy, then
forces, then stress, each omitted entirely when flagged as requiring
recomputation). -/
def resultsDoc (c : CalcModel) : Option Doc := do
  let f ← forcesSeg c
  let st ← stressSeg c
  pure (energySeg c ++ f ++ st)

/-- The document `mongo_doc` has assembled at the moment it computes the
inserted hash: atoms, the optional calculator sub-document, the results
sub-document and the user field — and nothing else. -/
def mongo_doc_prehash (massOf : String → PyFloat) (spg : AtomicStructure → String)
    (user : String) (s : AtomicStructure) (mcalc : Option CalcModel) : Option Doc := do
  let rd ← match mcalc with
    | some c => resultsDoc c
    | none => pure []
  pure ([("atoms", .obj (mongo_atoms_doc massOf spg s))]
    ++ (match mcalc with
        | some c => [("calculator", .obj (calcDoc c))]
        | none => [])
    ++ [("results", .obj rd), ("user", .str user)])

/-- `mongo_doc` from `src/mongo.py`.  `H` stands for the external
fingerprint `hashlib.sha1(ase.io.jsonio.encode(·)).hexdigest()`, `tc` and
`tm` for the two `datetime.datetime.utcnow()` readings, and `kwargs` for
the caller-supplied extra fields merged in as the final step.  `none`
models the only failure mode of the source (Python `max` on an empty
result array). -/
def mongo_doc (H : Doc → String) (massOf : String → PyFloat)
    (spg : AtomicStructure → String) (user : String) (tc tm : Nat)
    (s : AtomicStructure) (mcalc : Option CalcModel) (kwargs : Doc) : Option Doc := do
  let dpre ← mongo_doc_prehash massOf spg user s mcalc
  let d := dpre ++ [("inserted-hash", .str (H dpre))]
  let d := d ++ [("ctime", .time tc), ("mtime", .time tm)]
  pure (pyUpdate d kwargs)

/-- Read a float value. -/
def asNum : BVal → Option PyFloat
  | .num x => some x
  | _ => none

/-- Read a string value. -/
def asStr : BVal → Option String
  | .str s => some s
  | _ => none

/-- Read an integer value. -/
def asInt : BVal → Option Int
  | .int n => some n
  | _ => none

/-- Read a boolean value. -/
def asBool : BVal → Option Bool
  | .bool b => some b
  | _ => none

/-- Read a 3-vector. -/
def asVec3 : BVal → Option Vec3
  | .arr [a, b, c] => do
    let x ← asNum a
    let y ← asNum b
    let z ← asNum c
    pure (x, y, z)
  | _ => none

/-- Read a list of 3-vectors (a stored force array). -/
def asVecList : List BVal → Option (List Vec3)
  | [] => some []
  | v :: t => do
    let x ← asVec3 v
    let r ← asVecList t
    pure (x :: r)

/-- Read a list of floats (a stored stress array). -/
def asNumList : List BVal → Option (List PyFloat)
  | [] => some []
  | v :: t => do
    let x ← asNum v
    let r ← asNumList t
    pure (x :: r)

/-- Read a string-valued mapping back. -/
def asStrMap : List (String × BVal) → Option (List (String × String))
  | [] => some []
  | (k, v) :: t => do
    let s ← asStr v
    let r ← asStrMap t
    pure ((k, s) :: r)

/-- Read the constraint dictionaries back (`dict2constraint` applied to
each stored dictionary). -/
def asConstraints : List BVal → Option (List (List (String × String)))
  | [] => some []
  | .obj o :: t => do
    let m ← asStrMap o
    let r ← asConstraints t
    pure (m :: r)
  | _ => none

/-- Rebuild one `Atom` from its stored dictionary, exactly the fields the
decoder passes to the `Atom` constructor (the stored `index` is ignored). -/
def parseAtom (v : BVal) : Option PyAtom :=
  match v with
  | .obj o => do
    let sym ← (o.lookup "symbol").bind asStr
    let pos ← (o.lookup "position").bind asVec3
    let tg ← (o.lookup "tag").bind asInt
    let mom ← (o.lookup "momentum").bind asVec3
    let mg ← (o.lookup "magmom").bind asNum
    let ch ← (o.lookup "charge").bind asNum
    pure { symbol := sym, position := pos, tag := tg, charge := ch,
           momentum := mom, magmom := mg }
  | _ => none

/-- Rebuild the atom list. -/
def parseAtoms : List BVal → Option (List PyAtom)
  | [] => some []
  | v :: t => do
    let a ← parseAtom v
    let r ← parseAtoms t
    pure (a :: r)

/-- Read the cell matrix back. -/
def asCell : BVal → Option Cell3
  | .arr [a, b, c] => do
    let r1 ← asVec3 a
    let r2 ← asVec3 b
    let r3 ← asVec3 c
    pure (r1, r2, r3)
  | _ => none

/-- Read the periodic-boundary flags back. -/
def asPbc : BVal → Option (Bool × Bool × Bool)
  | .arr [a, b, c] => do
    let x ← asBool a
    let y ← asBool b
    let z ← asBool c
    pure (x, y, z)
  | _ => none

/-- `results.get(key, None)` followed by the `SinglePointCalculator`
storing the value: a float for the energy. -/
def resultEnergy (rd : Doc) : Option PyFloat :=
  (rd.lookup "energy").bind asNum

/-- The stored force array, when present. -/
def resultForces (rd : Doc) : Option (List Vec3) :=
  (rd.lookup "forces").bind fun v =>
    match v with
    | .arr l => asVecList l
    | _ => none

/-- The stored stress array, when present. -/
def resultStress (rd : Doc) : Option (List PyFloat) :=
  (rd.lookup "stress").bind fun v =>
    match v with
    | .arr l => asNumList l
    | _ => none

/-- `mongo_doc_atoms` from `src/mongo.py`: rebuild the `Atoms` object from
the stored sub-document and attach a `SinglePointCalculator` populated
from the stored `results` fields, absent fields defaulting to `None`.
The reconstructed result is reported as a `CalculationResult`; the
`SinglePointCalculator` holds only energy, forces and stress, so the
ensemble-energy field of the reconstruction is always absent. -/
def mongo_doc_atoms (doc : Doc) : Option (AtomicStructure × CalculationResult) := do
  let adv ← doc.lookup "atoms"
  let ad ← match adv with
    | .obj o => some o
    | _ => none
  let alv ← ad.lookup "atoms"
  let al ← match alv with
    | .arr l => some l
    | _ => none
  let atoms ← parseAtoms al
  let cell ← (ad.lookup "cell").bind asCell
  let pbc ← (ad.lookup "pbc").bind asPbc
  let info ← (ad.lookup "info").bind fun v =>
    match v with
    | .obj o => asStrMap o
    | _ => none
  let cons ← (ad.lookup "constraints").bind fun v =>
    match v with
    | .arr l => asConstraints l
    | _ => none
  let rdv ← doc.lookup "results"
  let rd ← match rdv with
    | .obj o => some o
    | _ => none
  pure ({ atoms := atoms, cell := cell, pbc := pbc, info := info, constraints := cons },
        { energy := resultEnergy rd, forces := resultForces rd,
          stress := resultStress rd, beefensemble := none })

/-- Look a key up inside the `results` sub-document of an encoded
document. -/
def resLookup (d : Doc) (k : String) : Option BVal :=
  match d.lookup "results" with
  | some (.obj rd) => rd.lookup k
  | _ => none

/-- `MongoDatabase.write` from `src/mongo.py` merges the keyword
arguments into the caller's dictionary (`d.update(kwargs)`) and then
inserts that same dictionary.  The pair returned here is (the caller's
dictionary after the call, the document handed to `insert`). -/
def MongoDatabase_write (d kwargs : Doc) : Doc × Doc :=
  (pyUpdate d kwargs, pyUpdate d kwargs)

/-- The position tolerance `1E-13` of `vibespresso.update`. -/
def vibTol : ℚ := 1 / 10 ^ 13

/-- Atomic positions of a structure handed to `vibespresso`, flattened to
the list of their components (the comparison in `update` ranges over all
components of `atoms.positions - self.atoms.positions`). -/
abbrev Positions := List ℚ

/-- The dirtiness test of `vibespresso.update`:
`np.max(x) > 1E-13 or np.min(x) < -1E-13` for
`x = new - prev`, i.e. some component of the difference exceeds the
tolerance in either direction. -/
def posDirty (prev new : Positions) : Bool :=
  (List.zipWith (fun a b => a - b) new prev).any fun c =>
    decide (vibTol < c) || decide (c < -vibTol)

/-- `'%04d' % n` for a natural counter value. -/
def pad4 (n : Nat) : String :=
  let s := toString n
  if s.length < 4 then String.mk (List.replicate (4 - s.length) '0') ++ s else s

/-- One invocation of the external espresso solver as `runcalc` performs
it: either a fresh (cold) solve that saves the converged density to
`savedChg`, or a density-seeded solve that loads `loadedChg` after
setting `startingpot` in the argument dictionary.  Each event carries the
keyword arguments the `espresso` instance was created with and the
positions the solve was run on. -/
inductive SolverEvent where
  | fresh (arg : SDict) (pos : Positions) (savedChg : String)
  | seeded (arg : SDict) (pos : Positions) (loadedChg : String)
deriving DecidableEq, Repr

/-- The mutable state of a `vibespresso` instance. -/
structure VState where
  arg : SDict
  outdirPref : String
  counter : Nat
  equilibriumdensity : String
  firststep : Bool
  ready : Bool
  atoms : Option Positions
deriving DecidableEq, Repr

/-- `vibespresso.__init__`: `self.arg = kwargs.copy()`, counter zero,
equilibrium-density filename derived from the prefix, cold and not
ready; `self.atoms` starts out as `None`. -/
def vibInit (outdirPref : String) (kwargs : SDict) : VState :=
  { arg := kwargs, outdirPref := outdirPref, counter := 0,
    equilibriumdensity := outdirPref ++ "_equi.tgz",
    firststep := true, ready := false, atoms := none }

/-- `vibespresso.runcalc`: acts only when not ready; allocates the next
output directory name, then either performs the first-ever fresh solve
(saving the equilibrium density) or a density-seeded solve (setting
`startingpot = 'file'` and loading the saved density); afterwards the
state is ready.  Returns the new state and the solver invocations
performed. -/
def vib_runcalc (s : VState) (p : Positions) : VState × List SolverEvent :=
  if s.ready then (s, [])
  else
    let outdir := s.outdirPref ++ "_" ++ pad4 s.counter
    let arg1 := setKeyS s.arg "outdir" outdir
    if s.firststep then
      ({ s with arg := arg1, counter := s.counter + 1, firststep := false, ready := true },
       [SolverEvent.fresh arg1 p s.equilibriumdensity])
    else
      let arg2 := setKeyS arg1 "startingpot" "file"
      ({ s with arg := arg2, counter := s.counter + 1, ready := true },
       [SolverEvent.seeded arg2 p s.equilibriumdensity])

/-- `vibespresso.update`: when a previous structure exists and any
position component moved by more than the tolerance, mark not ready;
when none exists, store a copy of the incoming structure.  Then run
`runcalc` and store a copy of the incoming structure. -/
def vib_update (s : VState) (p : Positions) : VState × List SolverEvent :=
  let s1 := match s.atoms with
    | some prev => if posDirty prev p then { s with ready := false } else s
    | none => { s with atoms := some p }
  let (s2, evs) := vib_runcalc s1 p
  ({ s2 with atoms := some p }, evs)

/-- `uniq` over the lines of the node file: collapse runs of adjacent
equal lines to a single line. -/
def uniqAdjacent : List String → List String
  | [] => []
  | [a] => [a]
  | a :: b :: t => if a = b then uniqAdjacent (b :: t) else a :: uniqAdjacent (b :: t)

/-- The batch-mode part of `config.__init__` from `src/espsite.py`, as a
function of the (stripped) lines of the `PBS_NODEFILE`: the process
list, the process count, the contents of the deduplicated node file
written by `uniq`, the node count read back by `wc -l`, and the three
launch command templates. -/
structure ConfigBatch where
  procs : List String
  nprocs : Nat
  uniqnodefile : List String
  nnodes : Nat
  perHostMpiExec : String
  perProcMpiExec : String
  perSpecProcMpiExec : String
deriving Repr

/-- Build the batch configuration from the node-file lines. -/
def config_init_batch (mpiexec nodefilePath uniqnodefilePath : String)
    (nodefileLines : List String) : ConfigBatch :=
  let procs := nodefileLines
  let uniqLines := uniqAdjacent nodefileLines
  { procs := procs
    nprocs := procs.length
    uniqnodefile := uniqLines
    nnodes := uniqLines.length
    perHostMpiExec := mpiexec ++ " -machinefile " ++ uniqnodefilePath ++ " -np "
      ++ toString uniqLines.length
    perProcMpiExec := mpiexec ++ " -machinefile " ++ nodefilePath ++ " -np "
      ++ toString procs.length ++ " -wdir %s %s"
    perSpecProcMpiExec := mpiexec ++ " -machinefile %s -np %d -wdir %s %s" }

section Lemmas

/-- Looking up the key just assigned returns the assigned value. -/
theorem lookup_setKeyS_self (d : SDict) (k v : String) :
    List.lookup k (setKeyS d k v) = some v := by
  induction d with
  | nil => simp [setKeyS, List.lookup]
  | cons a t ih =>
    by_cases h : a.1 = k
    · simp [setKeyS, h, List.lookup]
    · have hb : (k == a.1) = false := beq_eq_false_iff_ne.mpr (Ne.symm h)
      simp [setKeyS, h, List.lookup, hb, ih]

/-- Assignment leaves other keys unchanged. -/
theorem lookup_setKeyS_ne (d : SDict) (k v k' : String) (h : k' ≠ k) :
    List.lookup k' (setKeyS d k v) = List.lookup k' d := by
  have hb : (k' == k) = false := beq_eq_false_iff_ne.mpr h
  induction d with
  | nil => simp [setKeyS, List.lookup, hb]
  | cons a t ih =>
    by_cases ha : a.1 = k
    · subst ha
      simp [setKeyS, List.lookup, hb]
    · simp only [setKeyS, if_neg ha]
      by_cases hk' : (k' == a.1) = true
      · simp [List.lookup, hk']
      · have hk2 : (k' == a.1) = false := by
          cases hx : (k' == a.1) with
          | true => exact absurd hx hk'
          | false => rfl
        simp [List.lookup, hk2, ih]

/-- Looking up the key just assigned returns the assigned value
(document version). -/
theorem lookup_setKeyB_self (d : Doc) (k : String) (v : BVal) :
    List.lookup k (setKeyB d k v) = some v := by
  induction d with
  | nil => simp [setKeyB, List.lookup]
  | cons a t ih =>
    by_cases h : a.1 = k
    · simp [setKeyB, h, List.lookup]
    · have hb : (k == a.1) = false := beq_eq_false_iff_ne.mpr (Ne.symm h)
      simp [setKeyB, h, List.lookup, hb, ih]

/-- Assignment leaves other keys unchanged (document version). -/
theorem lookup_setKeyB_ne (d : Doc) (k : String) (v : BVal) (k' : String) (h : k' ≠ k) :
    List.lookup k' (setKeyB d k v) = List.lookup k' d := by
  have hb : (k' == k) = false := beq_eq_false_iff_ne.mpr h
  induction d with
  | nil => simp [setKeyB, List.lookup, hb]
  | cons a t ih =>
    by_cases ha : a.1 = k
    · subst ha
      simp [setKeyB, List.lookup, hb]
    · simp only [setKeyB, if_neg ha]
      by_cases hk' : (k' == a.1) = true
      · simp [List.lookup, hk']
      · have hk2 : (k' == a.1) = false := by
          cases hx : (k' == a.1) with
          | true => exact absurd hx hk'
          | false => rfl
        simp [List.lookup, hk2, ih]

/-- A key absent from the update mapping is untouched by `dict.update`. -/
theorem lookup_pyUpdate_absent (kw : Doc) (d : Doc) (k : String)
    (h : List.lookup k kw = none) :
    List.lookup k (pyUpdate d kw) = List.lookup k d := by
  induction kw generalizing d with
  | nil => rfl
  | cons a t ih =>
    have hk : ¬(k == a.1) = true := by
      intro hb
      simp [List.lookup, hb] at h
    have ht : List.lookup k t = none := by
      simpa [List.lookup, hk] using h
    have hne : k ≠ a.1 := by simpa [beq_iff_eq] using hk
    calc List.lookup k (pyUpdate (updateOne d a) t)
        = List.lookup k (updateOne d a) := ih (updateOne d a) ht
      _ = List.lookup k d := lookup_setKeyB_ne d a.1 a.2 k hne

/-- A successful lookup means the key occurs in the key list. -/
theorem lookup_some_mem (t : Doc) (k : String) (w : BVal)
    (h : List.lookup k t = some w) : k ∈ t.map Prod.fst := by
  induction t with
  | nil => simp [List.lookup] at h
  | cons a t ih =>
    cases hb : (k == a.1) with
    | true =>
      have : k = a.1 := by simpa [beq_iff_eq] using hb
      simp [this]
    | false =>
      have ht : List.lookup k t = some w := by simpa [List.lookup, hb] using h
      simp [ih ht]

/-- Under unique update keys, `dict.update` makes every updated binding
visible. -/
theorem lookup_pyUpdate_present (kw : Doc) (d : Doc) (k : String) (v : BVal)
    (hnd : (kw.map Prod.fst).Nodup) (h : List.lookup k kw = some v) :
    List.lookup k (pyUpdate d kw) = some v := by
  induction kw generalizing d with
  | nil => simp [List.lookup] at h
  | cons a t ih =>
    cases hb : (k == a.1) with
    | true =>
      have hk : k = a.1 := by simpa [beq_iff_eq] using hb
      have hv : some a.2 = some v := by simpa [List.lookup, hb] using h
      have hab : List.lookup k t = none := by
        rcases hl : List.lookup k t with _ | w
        · rfl
        · exfalso
          have hm : k ∈ t.map Prod.fst := lookup_some_mem t k w hl
          rw [hk] at hm
          simp only [List.map_cons, List.nodup_cons] at hnd
          exact hnd.1 hm
      calc List.lookup k (pyUpdate (updateOne d a) t)
          = List.lookup k (updateOne d a) := lookup_pyUpdate_absent t _ k hab
        _ = some a.2 := by rw [hk]; exact lookup_setKeyB_self d a.1 a.2
        _ = some v := hv
    | false =>
      have ht : List.lookup k t = some v := by simpa [List.lookup, hb] using h
      have hnd' : (t.map Prod.fst).Nodup := by
        simp only [List.map_cons, List.nodup_cons] at hnd
        exact hnd.2
      exact ih (updateOne d a) hnd' ht

/-- Lookup distributes over list append. -/
theorem lookup_append (k : String) (l₁ l₂ : Doc) :
    List.lookup k (l₁ ++ l₂) =
      match List.lookup k l₁ with
      | some v => some v
      | none => List.lookup k l₂ := by
  induction l₁ with
  | nil => simp [List.lookup]
  | cons a t ih =>
    by_cases h : (k == a.1) = true
    · simp [List.lookup, h]
    · simp only [List.cons_append, List.lookup, h]
      exact ih

end Lemmas

section MoreLemmas

/-- An unmoved structure never triggers the dirtiness test. -/
theorem posDirty_self (p : Positions) : posDirty p p = false := by
  induction p with
  | nil => rfl
  | cons a t ih =>
    simp only [posDirty, List.zipWith, List.any_cons] at ih ⊢
    rw [ih]
    simp [vibTol]

/-- The dirtiness test of `update` fires exactly when some component of
the position difference exceeds the tolerance in absolute value. -/
theorem posDirty_iff (prev p : Positions) :
    posDirty prev p = true ↔
      ∃ c ∈ List.zipWith (fun a b => a - b) p prev, vibTol < |c| := by
  unfold posDirty
  rw [List.any_eq_true]
  refine exists_congr fun c => and_congr_right fun _ => ?_
  rw [Bool.or_eq_true, decide_eq_true_eq, decide_eq_true_eq, lt_abs]
  constructor
  · rintro (h | h)
    · exact Or.inl h
    · exact Or.inr (by linarith)
  · rintro (h | h)
    · exact Or.inl h
    · exact Or.inr (by linarith)

/-- `x ≤ 0` rules out `0 < x` for Python floats. -/
theorem PyFloat_le_zero_not_lt (x : PyFloat) (h : PyFloat.le x (.fin 0) = true) :
    PyFloat.lt (.fin 0) x = false := by
  cases x with
  | fin q =>
    simp [PyFloat.le, decide_eq_true_eq] at h
    simp [PyFloat.lt]
    linarith
  | nan => simp [PyFloat.le] at h
  | inf => simp [PyFloat.le] at h
  | ninf => simp [PyFloat.lt]

/-- `uniq` keeps exactly the elements of the input. -/
theorem mem_uniqAdjacent (l : List String) (x : String) :
    x ∈ uniqAdjacent l ↔ x ∈ l := by
  induction l with
  | nil => simp [uniqAdjacent]
  | cons a t ih =>
    cases t with
    | nil => simp [uniqAdjacent]
    | cons b t' =>
      by_cases hab : a = b
      · rw [uniqAdjacent, if_pos hab]
        rw [ih]
        subst hab
        simp
      · rw [uniqAdjacent, if_neg hab]
        simp [ih]

/-- When `uniq` output has no duplicates at all, its length is the number
of distinct elements of the input. -/
theorem uniqAdjacent_length_of_nodup (l : List String)
    (h : (uniqAdjacent l).Nodup) :
    (uniqAdjacent l).length = l.dedup.length := by
  have hfin : (uniqAdjacent l).toFinset = l.toFinset := by
    ext x
    simp [List.mem_toFinset, mem_uniqAdjacent]
  calc (uniqAdjacent l).length
      = (uniqAdjacent l).toFinset.card := (List.toFinset_card_of_nodup h).symm
    _ = l.toFinset.card := by rw [hfin]
    _ = l.dedup.length := List.card_toFinset l

end MoreLemmas

section RoundTripLemmas

/-- Decoding one encoded atom recovers the atom (the stored `index` is
dropped). -/
theorem parseAtom_atomB (i : Nat) (a : PyAtom) : parseAtom (atomB i a) = some a := rfl

/-- Decoding the encoded atom list recovers the atom list. -/
theorem parseAtoms_atomsB (l : List PyAtom) : ∀ i, parseAtoms (atomsB i l) = some l := by
  induction l with
  | nil => intro i; rfl
  | cons a t ih =>
    intro i
    simp [atomsB, parseAtoms, parseAtom_atomB, ih (i + 1)]

/-- Decoding an encoded string-valued mapping recovers it. -/
theorem asStrMap_strMap (m : List (String × String)) :
    asStrMap (m.map fun p => (p.1, BVal.str p.2)) = some m := by
  induction m with
  | nil => rfl
  | cons a t ih => simp [asStrMap, asStr, ih]

/-- Decoding the encoded constraint dictionaries recovers them. -/
theorem asConstraints_strMapB (cs : List (List (String × String))) :
    asConstraints (cs.map strMapB) = some cs := by
  induction cs with
  | nil => rfl
  | cons a t ih => simp [asConstraints, strMapB, asStrMap_strMap, ih]

/-- Decoding an encoded force array recovers it. -/
theorem asVecList_vec3B (l : List Vec3) : asVecList (l.map vec3B) = some l := by
  induction l with
  | nil => rfl
  | cons a t ih => simp [asVecList, vec3B, asVec3, asNum, ih]

/-- Decoding an encoded stress array recovers it. -/
theorem asNumList_num (l : List PyFloat) : asNumList (l.map BVal.num) = some l := by
  induction l with
  | nil => rfl
  | cons a t ih => simp [asNumList, asNum, ih]

end RoundTripLemmas

mutual
/-- A concrete injective-by-construction rendering of a document value,
standing in for the JSON text `ase.io.jsonio.encode` would produce; it is
used only as the input of concrete hash functions in witnesses. -/
def bstr : BVal → String
  | .num (.fin q) => toString q
  | .num .nan => "NaN"
  | .num .inf => "Infinity"
  | .num .ninf => "-Infinity"
  | .int n => toString n
  | .str s => "s:" ++ s
  | .bool b => toString b
  | .arr l => "[" ++ bstrList l ++ "]"
  | .obj l => "(" ++ bstrPairs l ++ ")"
  | .time t => "t:" ++ toString t
  | .null => "null"

/-- Render a list of values. -/
def bstrList : List BVal → String
  | [] => ""
  | v :: t => bstr v ++ "," ++ bstrList t

/-- Render the entries of an object. -/
def bstrPairs : List (String × BVal) → String
  | [] => ""
  | (k, v) :: t => k ++ ":" ++ bstr v ++ ";" ++ bstrPairs t
end

/-- Concrete stand-in for the atomic-mass table in witnesses. -/
def massOne : String → PyFloat := fun _ => .fin 1

/-- Concrete stand-in for `spglib.get_spacegroup` in witnesses. -/
def spgP1 : AtomicStructure → String := fun _ => "P1"

/-- Concrete content fingerprint used in witnesses: the rendered document
text itself (an injective stand-in for its SHA1). -/
def hashRender : Doc → String := fun d => bstr (.obj d)

/-- A hydrogen atom with a `NaN` position component. -/
def aNaN : PyAtom :=
  { symbol := "H", position := (.nan, .fin 0, .fin 0), tag := 0, charge := .fin 0,
    momentum := (.fin 0, .fin 0, .fin 0), magmom := .fin 0 }

/-- An ordinary finite hydrogen atom. -/
def aFin : PyAtom :=
  { symbol := "H", position := (.fin 1, .fin 2, .fin 3), tag := 0, charge := .fin 0,
    momentum := (.fin 0, .fin 0, .fin 0), magmom := .fin 0 }

/-- The identity cell matrix. -/
def cellUnit : Cell3 :=
  ((.fin 1, .fin 0, .fin 0), (.fin 0, .fin 1, .fin 0), (.fin 0, .fin 0, .fin 1))

/-- The all-zero cell matrix (determinant zero). -/
def cellZero : Cell3 :=
  ((.fin 0, .fin 0, .fin 0), (.fin 0, .fin 0, .fin 0), (.fin 0, .fin 0, .fin 0))

/-- A structure with a non-finite position component. -/
def sNaN : AtomicStructure :=
  { atoms := [aNaN], cell := cellUnit, pbc := (true, true, true), info := [],
    constraints := [] }

/-- An ordinary finite one-atom structure. -/
def sFin : AtomicStructure :=
  { atoms := [aFin], cell := cellUnit, pbc := (true, false, true),
    info := [("key", "value")], constraints := [[("name", "FixAtoms")]] }

/-- A finite structure with a singular cell. -/
def sFlat : AtomicStructure :=
  { atoms := [aFin], cell := cellZero, pbc := (false, false, false), info := [],
    constraints := [] }

/-- C2: for the warm-start adapter, the call sequence `update(S0)`,
`update(S1)` with `S1 = S0`, then `update(S2)` with `S2` displaced beyond
the tolerance performs exactly one fresh (cold) solver invocation, on
`S0`, saving the equilibrium-density file; no solver invocation on the
unchanged second call; and exactly one density-seeded invocation on `S2`
that loads the density file persisted during the `S0` run, with
`startingpot` set to the stored-file mode in the solver's arguments. -/
theorem vibespresso_warm_start_sequence (pre : String) (kw : SDict) (p0 p2 : Positions)
    (hd : posDirty p0 p2 = true) :
    (vib_update (vibInit pre kw) p0).2 =
      [SolverEvent.fresh (setKeyS kw "outdir" (pre ++ "_" ++ "0000")) p0 (pre ++ "_equi.tgz")]
    ∧ (vib_update (vib_update (vibInit pre kw) p0).1 p0).2 = []
    ∧ (vib_update (vib_update (vib_update (vibInit pre kw) p0).1 p0).1 p2).2 =
      [SolverEvent.seeded
        (setKeyS (setKeyS (setKeyS kw "outdir" (pre ++ "_" ++ "0000")) "outdir"
          (pre ++ "_" ++ "0001")) "startingpot" "file")
        p2 (pre ++ "_equi.tgz")]
    ∧ List.lookup "startingpot"
        (setKeyS (setKeyS (setKeyS kw "outdir" (pre ++ "_" ++ "0000")) "outdir"
          (pre ++ "_" ++ "0001")) "startingpot" "file") = some "file" := by
  have hpad0 : pad4 0 = "0000" := rfl
  have hpad1 : pad4 1 = "0001" := rfl
  have h1 : vib_update (vibInit pre kw) p0 =
      ({ arg := setKeyS kw "outdir" (pre ++ "_" ++ pad4 0), outdirPref := pre, counter := 1,
         equilibriumdensity := pre ++ "_equi.tgz", firststep := false, ready := true,
         atoms := some p0 },
       [SolverEvent.fresh (setKeyS kw "outdir" (pre ++ "_" ++ pad4 0)) p0
         (pre ++ "_equi.tgz")]) := rfl
  rw [hpad0] at h1
  have h2 : vib_update
      ({ arg := setKeyS kw "outdir" (pre ++ "_" ++ "0000"), outdirPref := pre, counter := 1,
         equilibriumdensity := pre ++ "_equi.tgz", firststep := false, ready := true,
         atoms := some p0 } : VState) p0 =
      ({ arg := setKeyS kw "outdir" (pre ++ "_" ++ "0000"), outdirPref := pre, counter := 1,
         equilibriumdensity := pre ++ "_equi.tgz", firststep := false, ready := true,
         atoms := some p0 }, []) := by
    simp [vib_update, vib_runcalc, posDirty_self p0]
  have h3 : vib_update
      ({ arg := setKeyS kw "outdir" (pre ++ "_" ++ "0000"), outdirPref := pre, counter := 1,
         equilibriumdensity := pre ++ "_equi.tgz", firststep := false, ready := true,
         atoms := some p0 } : VState) p2 =
      ({ arg := setKeyS (setKeyS (setKeyS kw "outdir" (pre ++ "_" ++ "0000")) "outdir"
           (pre ++ "_" ++ pad4 1)) "startingpot" "file",
         outdirPref := pre, counter := 2,
         equilibriumdensity := pre ++ "_equi.tgz", firststep := false, ready := true,
         atoms := some p2 },
       [SolverEvent.seeded
         (setKeyS (setKeyS (setKeyS kw "outdir" (pre ++ "_" ++ "0000")) "outdir"
           (pre ++ "_" ++ pad4 1)) "startingpot" "file")
         p2 (pre ++ "_equi.tgz")]) := by
    simp [vib_update, vib_runcalc, hd]
  rw [hpad1] at h3
  refine ⟨by rw [h1], ?_, ?_, lookup_setKeyS_self _ _ _⟩
  · rw [h1]
    simp [h2]
  · rw [h1]
    simp only [h2]
    rw [h3]

/-- Witness for C2 at a concrete instance: prefix `out`, no extra
keyword arguments, one coordinate moving from `0` to `1`. -/
theorem vibespresso_warm_start_sequence_witness :
    (vib_update (vibInit "out" []) [0]).2 =
      [SolverEvent.fresh (setKeyS [] "outdir" ("out" ++ "_" ++ "0000")) [0]
        ("out" ++ "_equi.tgz")]
    ∧ (vib_update (vib_update (vibInit "out" []) [0]).1 [0]).2 = []
    ∧ (vib_update (vib_update (vib_update (vibInit "out" []) [0]).1 [0]).1 [1]).2 =
      [SolverEvent.seeded
        (setKeyS (setKeyS (setKeyS [] "outdir" ("out" ++ "_" ++ "0000")) "outdir"
          ("out" ++ "_" ++ "0001")) "startingpot" "file")
        [1] ("out" ++ "_equi.tgz")]
    ∧ List.lookup "startingpot"
        (setKeyS (setKeyS (setKeyS [] "outdir" ("out" ++ "_" ++ "0000")) "outdir"
          ("out" ++ "_" ++ "0001")) "startingpot" "file") = some "file" :=
  vibespresso_warm_start_sequence "out" [] [0] [1]
    (by norm_num [posDirty, vibTol])

/-- C7: in `update`, a position delta every component of which is at most
the tolerance `1E-13` in absolute value (including exactly the tolerance)
leaves readiness untouched and triggers no recomputation, while a delta
with any component exceeding the tolerance marks the state not ready and
forces a recomputation. -/
theorem vib_update_tolerance_boundary (s : VState) (prev p : Positions)
    (hprev : s.atoms = some prev) (hready : s.ready = true) :
    ((∀ c ∈ List.zipWith (fun a b => a - b) p prev, |c| ≤ vibTol) →
      (vib_update s p).2 = [] ∧ (vib_update s p).1.ready = true) ∧
    ((∃ c ∈ List.zipWith (fun a b => a - b) p prev, vibTol < |c|) →
      (vib_update s p).2 ≠ []) := by
  constructor
  · intro hall
    have hnd : posDirty prev p = false := by
      cases hb : posDirty prev p with
      | false => rfl
      | true =>
        exfalso
        obtain ⟨c, hc, hlt⟩ := (posDirty_iff prev p).mp hb
        exact absurd hlt (not_lt.mpr (hall c hc))
    simp [vib_update, hprev, hnd, vib_runcalc, hready]
  · intro hex
    have hdt : posDirty prev p = true := (posDirty_iff prev p).mpr hex
    simp only [vib_update, hprev, hdt, vib_runcalc, if_true]
    cases hf : s.firststep <;> simp [hf]

/-- A concrete warm (ready) adapter state used in witnesses. -/
def warmState : VState :=
  { arg := [], outdirPref := "out", counter := 1,
    equilibriumdensity := "out_equi.tgz", firststep := false, ready := true,
    atoms := some [0] }

/-- Witness for C7: a warm one-atom state; an unchanged position (delta
exactly zero) triggers nothing, a unit displacement forces a solve. -/
theorem vib_update_tolerance_boundary_witness :
    ((vib_update warmState [0]).2 = [] ∧ (vib_update warmState [0]).1.ready = true) ∧
    (vib_update warmState [1]).2 ≠ [] :=
  ⟨(vib_update_tolerance_boundary warmState [0] [0] rfl rfl).1
      (by norm_num [vibTol]),
   (vib_update_tolerance_boundary warmState [0] [1] rfl rfl).2
      (by norm_num [vibTol])⟩

/-- C8 counterexample: for the node file with lines `a`, `b`, `a` (a
duplicate that is not adjacent), the computed node count is 3, not the
number of distinct hostnames (2), and the machine file built by `uniq`
lists `a` twice. -/
theorem config_nnodes_counterexample :
    (config_init_batch "mpirun" "nodefile" "uniqnodefile" ["a", "b", "a"]).nnodes ≠
      (["a", "b", "a"] : List String).dedup.length ∧
    (config_init_batch "mpirun" "nodefile" "uniqnodefile" ["a", "b", "a"]).nnodes = 3 ∧
    (["a", "b", "a"] : List String).dedup.length = 2 ∧
    ¬ (config_init_batch "mpirun" "nodefile" "uniqnodefile" ["a", "b", "a"]).uniqnodefile.Nodup := by
  refine ⟨by decide, rfl, by decide, ?_⟩
  intro h
  have : ¬ (["a", "b", "a"] : List String).Nodup := by decide
  exact this h

/-- C8 (amended): the adapter deduplicates only adjacent duplicates
(`uniq` semantics); whenever the node file lists its duplicates in
adjacent runs — in particular whenever the `uniq` output is
duplicate-free — the node count equals the number of distinct hostnames
and the machine file lists each distinct hostname exactly once. -/
theorem config_nnodes_distinct_of_grouped (m nf unf : String) (lines : List String)
    (h : (uniqAdjacent lines).Nodup) :
    (config_init_batch m nf unf lines).nnodes = lines.dedup.length ∧
    (config_init_batch m nf unf lines).uniqnodefile.Nodup ∧
    ∀ x, x ∈ (config_init_batch m nf unf lines).uniqnodefile ↔ x ∈ lines := by
  refine ⟨uniqAdjacent_length_of_nodup lines h, h, ?_⟩
  intro x
  exact mem_uniqAdjacent lines x

/-- Witness for C8 (amended) on the node file `a`, `a`, `b`. -/
theorem config_nnodes_distinct_of_grouped_witness :
    (config_init_batch "mpirun" "nodefile" "uniqnodefile" ["a", "a", "b"]).nnodes =
      (["a", "a", "b"] : List String).dedup.length ∧
    (config_init_batch "mpirun" "nodefile" "uniqnodefile" ["a", "a", "b"]).uniqnodefile.Nodup :=
  ⟨(config_nnodes_distinct_of_grouped "mpirun" "nodefile" "uniqnodefile" ["a", "a", "b"]
      (by decide)).1,
   (config_nnodes_distinct_of_grouped "mpirun" "nodefile" "uniqnodefile" ["a", "a", "b"]
      (by decide)).2.1⟩

/-- C9 counterexample: with an empty keyword mapping the caller's
dictionary is left exactly unchanged by `write`, so the claim's
universally quantified "it is not left unchanged" fails. -/
theorem write_unchanged_counterexample :
    (MongoDatabase_write [("a", BVal.int 1)] []).1 = [("a", BVal.int 1)] := rfl

/-- C9 (amended): `write` merges the keyword arguments into the caller's
dictionary in place before inserting: after the call the caller's
dictionary is exactly the merge of `d` and `kwargs`, the inserted
document is that same dictionary, and every keyword binding is visible
in it (so the dictionary differs from its original value whenever the
merge adds or changes a binding). -/
theorem write_mutates_caller_dict (d kw : Doc) (k : String) (v : BVal)
    (hnd : (kw.map Prod.fst).Nodup) (hv : List.lookup k kw = some v) :
    (MongoDatabase_write d kw).1 = pyUpdate d kw ∧
    (MongoDatabase_write d kw).2 = (MongoDatabase_write d kw).1 ∧
    List.lookup k (MongoDatabase_write d kw).1 = some v :=
  ⟨rfl, rfl, lookup_pyUpdate_present kw d k v hnd hv⟩

/-- Witness for C9 (amended): merging a fresh binding `b` into a
one-entry dictionary. -/
theorem write_mutates_caller_dict_witness :
    (MongoDatabase_write [("a", BVal.int 1)] [("b", BVal.int 2)]).1 =
      pyUpdate [("a", BVal.int 1)] [("b", BVal.int 2)] ∧
    (MongoDatabase_write [("a", BVal.int 1)] [("b", BVal.int 2)]).2 =
      (MongoDatabase_write [("a", BVal.int 1)] [("b", BVal.int 2)]).1 ∧
    List.lookup "b" (MongoDatabase_write [("a", BVal.int 1)] [("b", BVal.int 2)]).1 =
      some (BVal.int 2) :=
  write_mutates_caller_dict [("a", BVal.int 1)] [("b", BVal.int 2)] "b" (BVal.int 2)
    (by simp) rfl

/-- C10: the caller-supplied extra fields are merged into the document as
the final step of `mongo_doc`, after user, inserted-hash and both
timestamps; hence any extra binding — including one sharing a key with a
computed field — ends up verbatim in the returned document, silently
replacing the computed value. -/
theorem mongo_doc_kwargs_override (H : Doc → String) (massOf : String → PyFloat)
    (spg : AtomicStructure → String) (user : String) (tc tm : Nat)
    (s : AtomicStructure) (mcalc : Option CalcModel) (kw : Doc) (d : Doc)
    (k : String) (v : BVal)
    (hnd : (kw.map Prod.fst).Nodup)
    (hd : mongo_doc H massOf spg user tc tm s mcalc kw = some d)
    (hv : List.lookup k kw = some v) :
    List.lookup k d = some v := by
  rcases hp : mongo_doc_prehash massOf spg user s mcalc with _ | dpre
  · rw [mongo_doc, hp] at hd
    simp at hd
  · rw [mongo_doc, hp] at hd
    have hd' : pyUpdate (dpre ++ [("inserted-hash", BVal.str (H dpre))]
        ++ [("ctime", BVal.time tc), ("mtime", BVal.time tm)]) kw = d := by
      simpa using hd
    rw [← hd']
    exact lookup_pyUpdate_present kw _ k v hnd hv

/-- Witness for C10: an extra binding that collides with the computed
`user` field replaces it in the returned document. -/
theorem mongo_doc_kwargs_override_witness :
    List.lookup "user" ((mongo_doc hashRender massOne spgP1 "alice" 0 0 sFin none
      [("user", BVal.str "override")]).getD []) = some (BVal.str "override") :=
  mongo_doc_kwargs_override hashRender massOne spgP1 "alice" 0 0 sFin none
    [("user", BVal.str "override")] _ "user" (BVal.str "override")
    (by simp) rfl rfl

/-- C5: the encoded atoms document contains a `volume` field exactly when
the cell determinant is strictly positive (in which case it holds the
cell volume, the absolute value of the determinant); when the determinant
is `≤ 0` no volume field is present. -/
theorem mongo_atoms_doc_volume (massOf : String → PyFloat) (spg : AtomicStructure → String)
    (s : AtomicStructure) :
    (PyFloat.le (det3 s.cell) (.fin 0) = true →
      List.lookup "volume" (mongo_atoms_doc massOf spg s) = none) ∧
    (PyFloat.lt (.fin 0) (det3 s.cell) = true →
      List.lookup "volume" (mongo_atoms_doc massOf spg s) =
        some (.num (PyFloat.pabs (det3 s.cell)))) := by
  constructor
  · intro h
    have hlt := PyFloat_le_zero_not_lt _ h
    simp [mongo_atoms_doc, List.lookup, hlt]
  · intro h
    simp [mongo_atoms_doc, List.lookup, h]

/-- Witness for C5: the zero cell (determinant `0`) produces no volume
field; the unit cell (determinant `1`) produces the volume `1`. -/
theorem mongo_atoms_doc_volume_witness :
    List.lookup "volume" (mongo_atoms_doc massOne spgP1 sFlat) = none ∧
    List.lookup "volume" (mongo_atoms_doc massOne spgP1 sFin) =
      some (.num (PyFloat.pabs (det3 sFin.cell))) :=
  ⟨(mongo_atoms_doc_volume massOne spgP1 sFlat).1
      (by norm_num [det3, sFlat, cellZero, PyFloat.le, PyFloat.mul, PyFloat.add,
        PyFloat.sub, PyFloat.neg]),
   (mongo_atoms_doc_volume massOne spgP1 sFin).2
      (by norm_num [det3, sFin, cellUnit, PyFloat.lt, PyFloat.mul, PyFloat.add,
        PyFloat.sub, PyFloat.neg])⟩

/-- A calculator whose force array has two rows although the attached
structure has a single atom (an inconsistent shape). -/
def calcMismatched : CalcModel :=
  { hasTodict := false, todictDoc := [], module := "espresso", className := "espresso",
    requiresEnergy := false, requiresForces := false, requiresStress := true,
    energy := .fin 5, beefensemble := false, printensemble := false, beefEnsemble := [],
    forces := [(.fin 1, .fin 0, .fin 0), (.fin 2, .fin 0, .fin 0)], stress := [] }

/-- C3 counterexample: encoding a structure with a `NaN` position
component does not fail — it returns a document with the non-finite value
embedded verbatim — and encoding with a force array whose length does not
match the atom count also returns a document; no `SerializationError`
exists in the code. -/
theorem mongo_doc_no_serialization_error :
    (mongo_doc hashRender massOne spgP1 "user" 0 0 sNaN none []).isSome = true ∧
    List.lookup "atoms" (mongo_atoms_doc massOne spgP1 sNaN) =
      some (.arr [.obj [("symbol", .str "H"),
        ("position", .arr [.num .nan, .num (.fin 0), .num (.fin 0)]),
        ("tag", .int 0), ("index", .int 0), ("charge", .num (.fin 0)),
        ("momentum", .arr [.num (.fin 0), .num (.fin 0), .num (.fin 0)]),
        ("magmom", .num (.fin 0))]]) ∧
    (mongo_doc hashRender massOne spgP1 "user" 0 0 sNaN (some calcMismatched) []).isSome =
      true :=
  ⟨rfl, rfl, rfl⟩

/-- C3 (amended): `mongo_doc` performs no finiteness or shape validation
at all: with no calculator attached it returns a document for every
structure, non-finite numeric fields included. -/
theorem mongo_doc_total_without_calculator (H : Doc → String) (massOf : String → PyFloat)
    (spg : AtomicStructure → String) (user : String) (tc tm : Nat)
    (s : AtomicStructure) (kw : Doc) :
    (mongo_doc H massOf spg user tc tm s none kw).isSome = true := rfl

/-- The prehash document never contains an `inserted-hash` key of its
own. -/
theorem prehash_no_hash_key (massOf : String → PyFloat) (spg : AtomicStructure → String)
    (user : String) (s : AtomicStructure) (mcalc : Option CalcModel) (dpre : Doc)
    (hp : mongo_doc_prehash massOf spg user s mcalc = some dpre) :
    List.lookup "inserted-hash" dpre = none := by
  cases mcalc with
  | none =>
    have : dpre = [("atoms", .obj (mongo_atoms_doc massOf spg s))]
        ++ [("results", .obj []), ("user", .str user)] := by
      rw [mongo_doc_prehash] at hp
      simpa using hp.symm
    subst this
    simp [List.lookup]
  | some c =>
    rcases hres : resultsDoc c with _ | rd
    · rw [mongo_doc_prehash, hres] at hp
      simp at hp
    · have : dpre = [("atoms", .obj (mongo_atoms_doc massOf spg s))]
          ++ [("calculator", .obj (calcDoc c))]
          ++ [("results", .obj rd), ("user", .str user)] := by
        rw [mongo_doc_prehash, hres] at hp
        simpa using hp.symm
      subst this
      simp [List.lookup]

/-- C4 (amended): the inserted hash fingerprints only the partially
assembled document — the atoms, calculator and results sub-documents and
the user field — because it is computed before the timestamps and the
caller-supplied extra fields are added; consequently two encodings of the
same content at different wall-clock times carry the same hash. -/
theorem mongo_doc_hash_excludes_timestamps (H : Doc → String)
    (massOf : String → PyFloat) (spg : AtomicStructure → String) (user : String)
    (tc tm tc' tm' : Nat) (s : AtomicStructure) (mcalc : Option CalcModel)
    (kw : Doc) (d d' : Doc)
    (hk : List.lookup "inserted-hash" kw = none)
    (h : mongo_doc H massOf spg user tc tm s mcalc kw = some d)
    (h' : mongo_doc H massOf spg user tc' tm' s mcalc kw = some d') :
    List.lookup "inserted-hash" d =
      Option.map (fun p => BVal.str (H p)) (mongo_doc_prehash massOf spg user s mcalc) ∧
    List.lookup "inserted-hash" d = List.lookup "inserted-hash" d' := by
  rcases hp : mongo_doc_prehash massOf spg user s mcalc with _ | dpre
  · rw [mongo_doc, hp] at h
    simp at h
  · have hnil := prehash_no_hash_key massOf spg user s mcalc dpre hp
    have key : ∀ ta tb dx, mongo_doc H massOf spg user ta tb s mcalc kw = some dx →
        List.lookup "inserted-hash" dx = some (.str (H dpre)) := by
      intro ta tb dx hx
      rw [mongo_doc, hp] at hx
      have hx' : pyUpdate (dpre ++ [("inserted-hash", BVal.str (H dpre))]
          ++ [("ctime", BVal.time ta), ("mtime", BVal.time tb)]) kw = dx := by
        simpa using hx
      rw [← hx']
      rw [lookup_pyUpdate_absent kw _ _ hk]
      rw [lookup_append, lookup_append, hnil]
      simp [List.lookup]
    rw [key tc tm d h, key tc' tm' d' h']
    exact ⟨rfl, rfl⟩

/-- Witness for C4 (amended): a concrete document encoded at times `0,0`. -/
theorem mongo_doc_hash_excludes_timestamps_witness :
    List.lookup "inserted-hash"
      ((mongo_doc hashRender massOne spgP1 "user" 0 0 sFin none []).getD []) =
      Option.map (fun p => BVal.str (hashRender p))
        (mongo_doc_prehash massOne spgP1 "user" sFin none) ∧
    List.lookup "inserted-hash"
      ((mongo_doc hashRender massOne spgP1 "user" 0 0 sFin none []).getD []) =
      List.lookup "inserted-hash"
        ((mongo_doc hashRender massOne spgP1 "user" 5 7 sFin none []).getD []) :=
  mongo_doc_hash_excludes_timestamps hashRender massOne spgP1 "user" 0 0 5 7 sFin none
    [] _ _ rfl rfl rfl

/-- C4 counterexample: encoding the same structure at creation times `0`
and `5` yields documents with different `ctime` fields but the very same
inserted hash, so the hash is computed before the timestamps (and extra
fields) are added and is not a function of wall-clock time. -/
theorem mongo_doc_hash_counterexample :
    List.lookup "inserted-hash"
      ((mongo_doc hashRender massOne spgP1 "user" 0 0 sFin none []).getD []) =
      List.lookup "inserted-hash"
        ((mongo_doc hashRender massOne spgP1 "user" 5 7 sFin none []).getD []) ∧
    List.lookup "ctime"
      ((mongo_doc hashRender massOne spgP1 "user" 0 0 sFin none []).getD []) =
      some (.time 0) ∧
    List.lookup "ctime"
      ((mongo_doc hashRender massOne spgP1 "user" 5 7 sFin none []).getD []) =
      some (.time 5) ∧
    (0 : Nat) ≠ 5 :=
  ⟨rfl, rfl, rfl, by decide⟩

/-- The possible shapes of the force entries of the results sub-document:
empty when forces are flagged as requiring recomputation, otherwise the
force array together with its maximum absolute component. -/
theorem forcesSeg_shape (c : CalcModel) (f : Doc) (h : forcesSeg c = some f) :
    (c.requiresForces = true ∧ f = []) ∨
    (c.requiresForces = false ∧ ∃ m, pymax ((flatVecs c.forces).map PyFloat.pabs) = some m ∧
      f = [("forces", .arr (c.forces.map vec3B)), ("fmax", .num m)]) := by
  by_cases hr : c.requiresForces = true
  · left
    refine ⟨hr, ?_⟩
    rw [forcesSeg, if_pos hr] at h
    simpa using h.symm
  · right
    refine ⟨Bool.not_eq_true _ |>.mp hr, ?_⟩
    rw [forcesSeg, if_neg hr] at h
    rcases hm : pymax ((flatVecs c.forces).map PyFloat.pabs) with _ | m
    · rw [hm] at h
      simp at h
    · rw [hm] at h
      exact ⟨m, rfl, by simpa using h.symm⟩

/-- The possible shapes of the stress entries of the results
sub-document. -/
theorem stressSeg_shape (c : CalcModel) (st : Doc) (h : stressSeg c = some st) :
    (c.requiresStress = true ∧ st = []) ∨
    (c.requiresStress = false ∧ ∃ m, pymax (c.stress.map PyFloat.pabs) = some m ∧
      st = [("stress", .arr (c.stress.map BVal.num)), ("smax", .num m)]) := by
  by_cases hr : c.requiresStress = true
  · left
    refine ⟨hr, ?_⟩
    rw [stressSeg, if_pos hr] at h
    simpa using h.symm
  · right
    refine ⟨Bool.not_eq_true _ |>.mp hr, ?_⟩
    rw [stressSeg, if_neg hr] at h
    rcases hm : pymax (c.stress.map PyFloat.pabs) with _ | m
    · rw [hm] at h
      simp at h
    · rw [hm] at h
      exact ⟨m, rfl, by simpa using h.symm⟩

/-- A successfully assembled results sub-document splits into its energy,
force and stress segments. -/
theorem resultsDoc_shape (c : CalcModel) (rd : Doc) (h : resultsDoc c = some rd) :
    ∃ f st, forcesSeg c = some f ∧ stressSeg c = some st ∧
      rd = energySeg c ++ f ++ st := by
  rcases hf : forcesSeg c with _ | f
  · rw [resultsDoc, hf] at h
    simp at h
  · rcases hst : stressSeg c with _ | st
    · rw [resultsDoc, hf, hst] at h
      simp at h
    · refine ⟨f, st, rfl, rfl, ?_⟩
      rw [resultsDoc, hf, hst] at h
      simpa using h.symm

/-- C6: for a structure with an attached calculator, each of energy,
forces and stress is present in the `results` sub-document exactly when
the calculator does not flag it as requiring recomputation (a flagged
quantity's key is entirely absent, not null); an embedded quantity comes
with its derived maximum absolute component (`fmax`, `smax`), and the
ensemble energies are embedded exactly when the energy is embedded and
both BEEF flags are enabled. -/
theorem mongo_doc_results_omission (H : Doc → String) (massOf : String → PyFloat)
    (spg : AtomicStructure → String) (user : String) (tc tm : Nat)
    (s : AtomicStructure) (c : CalcModel) (d : Doc)
    (h : mongo_doc H massOf spg user tc tm s (some c) [] = some d) :
    (resLookup d "energy").isSome = !c.requiresEnergy ∧
    (resLookup d "beefensemble").isSome =
      (!c.requiresEnergy && (c.beefensemble && c.printensemble)) ∧
    (resLookup d "forces").isSome = !c.requiresForces ∧
    (resLookup d "fmax").isSome = !c.requiresForces ∧
    (resLookup d "stress").isSome = !c.requiresStress ∧
    (resLookup d "smax").isSome = !c.requiresStress ∧
    (c.requiresEnergy = false → resLookup d "energy" = some (.num c.energy)) ∧
    (c.requiresEnergy = false → c.beefensemble = true → c.printensemble = true →
      resLookup d "beefensemble" = some (.arr (c.beefEnsemble.map .num))) ∧
    (c.requiresForces = false →
      resLookup d "forces" = some (.arr (c.forces.map vec3B)) ∧
      resLookup d "fmax" =
        Option.map BVal.num (pymax ((flatVecs c.forces).map PyFloat.pabs))) ∧
    (c.requiresStress = false →
      resLookup d "stress" = some (.arr (c.stress.map BVal.num)) ∧
      resLookup d "smax" = Option.map BVal.num (pymax (c.stress.map PyFloat.pabs))) := by
  rcases hres : resultsDoc c with _ | rd
  · rw [mongo_doc, mongo_doc_prehash, hres] at h
    simp at h
  · rw [mongo_doc, mongo_doc_prehash, hres] at h
    have hd : d = ([("atoms", BVal.obj (mongo_atoms_doc massOf spg s))]
        ++ [("calculator", BVal.obj (calcDoc c))]
        ++ [("results", BVal.obj rd), ("user", BVal.str user)])
        ++ [("inserted-hash", BVal.str (H ([("atoms", BVal.obj (mongo_atoms_doc massOf spg s))]
          ++ [("calculator", BVal.obj (calcDoc c))]
          ++ [("results", BVal.obj rd), ("user", BVal.str user)])))]
        ++ [("ctime", BVal.time tc), ("mtime", BVal.time tm)] := by
      simpa using h.symm
    have hlk : ∀ k, resLookup d k = List.lookup k rd := by
      intro k
      rw [hd]
      simp [resLookup, List.lookup]
    simp only [hlk]
    obtain ⟨f, st, hf, hst, hrd⟩ := resultsDoc_shape c rd hres
    subst hrd
    rcases forcesSeg_shape c f hf with ⟨hrf, hfe⟩ | ⟨hrf, m, hm, hfe⟩ <;>
      rcases stressSeg_shape c st hst with ⟨hrs, hse⟩ | ⟨hrs, ms, hms, hse⟩ <;>
      subst hfe <;> subst hse <;>
      by_cases hre : c.requiresEnergy = true <;>
      by_cases hbe : c.beefensemble = true <;>
      by_cases hpe : c.printensemble = true <;>
      simp [energySeg, hre, hrf, hrs, hbe, hpe, List.lookup, lookup_append, *]


/-- A sample calculator: energy and forces are up to date (with BEEF
ensemble enabled), stress is flagged as requiring recomputation. -/
def calcSample : CalcModel :=
  { hasTodict := true, todictDoc := [("kpts", .str "gamma")], module := "espresso",
    className := "espresso", requiresEnergy := false, requiresForces := false,
    requiresStress := true, energy := .fin 5, beefensemble := true,
    printensemble := true, beefEnsemble := [.fin 4, .fin 6],
    forces := [(.fin 1, .fin (-2), .fin 0)], stress := [] }

/-- Witness for C6 on `calcSample`: energy, ensemble, forces and `fmax`
keys are present, stress and `smax` keys are absent. -/
theorem mongo_doc_results_omission_witness :
    (resLookup ((mongo_doc hashRender massOne spgP1 "user" 0 0 sFin (some calcSample)
        []).getD []) "energy").isSome = !calcSample.requiresEnergy ∧
    (resLookup ((mongo_doc hashRender massOne spgP1 "user" 0 0 sFin (some calcSample)
        []).getD []) "beefensemble").isSome =
      (!calcSample.requiresEnergy && (calcSample.beefensemble && calcSample.printensemble)) ∧
    (resLookup ((mongo_doc hashRender massOne spgP1 "user" 0 0 sFin (some calcSample)
        []).getD []) "forces").isSome = !calcSample.requiresForces ∧
    (resLookup ((mongo_doc hashRender massOne spgP1 "user" 0 0 sFin (some calcSample)
        []).getD []) "fmax").isSome = !calcSample.requiresForces ∧
    (resLookup ((mongo_doc hashRender massOne spgP1 "user" 0 0 sFin (some calcSample)
        []).getD []) "stress").isSome = !calcSample.requiresStress ∧
    (resLookup ((mongo_doc hashRender massOne spgP1 "user" 0 0 sFin (some calcSample)
        []).getD []) "smax").isSome = !calcSample.requiresStress ∧
    resLookup ((mongo_doc hashRender massOne spgP1 "user" 0 0 sFin (some calcSample)
        []).getD []) "energy" = some (.num calcSample.energy) := by
  have C := mongo_doc_results_omission hashRender massOne spgP1 "user" 0 0 sFin
    calcSample ((mongo_doc hashRender massOne spgP1 "user" 0 0 sFin (some calcSample)
      []).getD []) rfl
  exact ⟨C.1, C.2.1, C.2.2.1, C.2.2.2.1, C.2.2.2.2.1, C.2.2.2.2.2.1,
    C.2.2.2.2.2.2.1 rfl⟩

/-- Decoding an encoded cell recovers it. -/
theorem asCell_cellB (c : Cell3) : asCell (cellB c) = some c := rfl

/-- Decoding encoded periodic flags recovers them. -/
theorem asPbc_pbcB (p : Bool × Bool × Bool) : asPbc (pbcB p) = some p := rfl

/-- Decoding any document with the layout `mongo_doc` produces recovers
the encoded structure exactly, and rebuilds the result from the stored
`results` sub-document. -/
theorem decode_encoded (massOf : String → PyFloat) (spg : AtomicStructure → String)
    (user : String) (s : AtomicStructure) (cd : Doc) (rd : Doc) (hv : BVal)
    (tc tm : Nat) :
    mongo_doc_atoms (([("atoms", BVal.obj (mongo_atoms_doc massOf spg s))]
        ++ [("calculator", BVal.obj cd)]
        ++ [("results", BVal.obj rd), ("user", BVal.str user)])
        ++ [("inserted-hash", hv)]
        ++ [("ctime", BVal.time tc), ("mtime", BVal.time tm)]) =
      some (s, { energy := resultEnergy rd, forces := resultForces rd,
                 stress := resultStress rd, beefensemble := none }) := by
  have hatoms : List.lookup "atoms" (mongo_atoms_doc massOf spg s) =
      some (.arr (atomsB 0 s.atoms)) := by
    simp [mongo_atoms_doc, List.lookup]
  have hcell : List.lookup "cell" (mongo_atoms_doc massOf spg s) =
      some (cellB s.cell) := by
    simp [mongo_atoms_doc, List.lookup]
  have hpbc : List.lookup "pbc" (mongo_atoms_doc massOf spg s) =
      some (pbcB s.pbc) := by
    simp [mongo_atoms_doc, List.lookup]
  have hinfo : List.lookup "info" (mongo_atoms_doc massOf spg s) =
      some (strMapB s.info) := by
    simp [mongo_atoms_doc, List.lookup]
  have hcons : List.lookup "constraints" (mongo_atoms_doc massOf spg s) =
      some (.arr (s.constraints.map strMapB)) := by
    simp [mongo_atoms_doc, List.lookup]
  simp only [mongo_doc_atoms, List.lookup, List.cons_append, List.nil_append]
  simp [hatoms, hcell, hpbc, hinfo, hcons, parseAtoms_atomsB, asCell_cellB, asPbc_pbcB,
    strMapB, asStrMap_strMap, asConstraints_strMapB]

/-- The energy segment binds no key other than `energy` and
`beefensemble`. -/
theorem lookup_energySeg_other (c : CalcModel) (k : String)
    (h1 : k ≠ "energy") (h2 : k ≠ "beefensemble") :
    List.lookup k (energySeg c) = none := by
  have hb1 : (k == "energy") = false := beq_eq_false_iff_ne.mpr h1
  have hb2 : (k == "beefensemble") = false := beq_eq_false_iff_ne.mpr h2
  by_cases hre : c.requiresEnergy = true <;>
    by_cases hbe : c.beefensemble = true <;>
    by_cases hpe : c.printensemble = true <;>
    simp [energySeg, hre, hbe, hpe, List.lookup, hb1, hb2]

/-- The decoded energy of an assembled results sub-document is the
calculator's energy when embedded, absent otherwise. -/
theorem resultEnergy_of_resultsDoc (c : CalcModel) (rd : Doc)
    (h : resultsDoc c = some rd) : resultEnergy rd = (calcResult c).energy := by
  obtain ⟨f, st, hf, hst, hrd⟩ := resultsDoc_shape c rd h
  subst hrd
  rcases forcesSeg_shape c f hf with ⟨hrf, hfe⟩ | ⟨hrf, m, hm, hfe⟩ <;>
    rcases stressSeg_shape c st hst with ⟨hrs, hse⟩ | ⟨hrs, ms, hms, hse⟩ <;>
    subst hfe <;> subst hse <;>
    by_cases hre : c.requiresEnergy = true <;>
    by_cases hbe : c.beefensemble = true <;>
    by_cases hpe : c.printensemble = true <;>
    simp [resultEnergy, calcResult, energySeg, hre, hbe, hpe, hrf, hrs,
      List.lookup, lookup_append, asNum]

/-- The decoded force array of an assembled results sub-document. -/
theorem resultForces_of_resultsDoc (c : CalcModel) (rd : Doc)
    (h : resultsDoc c = some rd) : resultForces rd = (calcResult c).forces := by
  obtain ⟨f, st, hf, hst, hrd⟩ := resultsDoc_shape c rd h
  subst hrd
  rcases forcesSeg_shape c f hf with ⟨hrf, hfe⟩ | ⟨hrf, m, hm, hfe⟩ <;>
    rcases stressSeg_shape c st hst with ⟨hrs, hse⟩ | ⟨hrs, ms, hms, hse⟩ <;>
    subst hfe <;> subst hse <;>
    simp [resultForces, calcResult, hrf, hrs, List.lookup, lookup_append,
      lookup_energySeg_other, asVecList_vec3B]

/-- The decoded stress array of an assembled results sub-document. -/
theorem resultStress_of_resultsDoc (c : CalcModel) (rd : Doc)
    (h : resultsDoc c = some rd) : resultStress rd = (calcResult c).stress := by
  obtain ⟨f, st, hf, hst, hrd⟩ := resultsDoc_shape c rd h
  subst hrd
  rcases forcesSeg_shape c f hf with ⟨hrf, hfe⟩ | ⟨hrf, m, hm, hfe⟩ <;>
    rcases stressSeg_shape c st hst with ⟨hrs, hse⟩ | ⟨hrs, ms, hms, hse⟩ <;>
    subst hfe <;> subst hse <;>
    simp [resultStress, calcResult, hrf, hrs, List.lookup, lookup_append,
      lookup_energySeg_other, asNumList_num]

/-- C1 (amended): decoding the encoded document (no extra fields)
recovers a structure equal to `s` in every modelled field — species
symbols, positions, tags, momenta, charges, magnetic moments, cell,
periodic flags, metadata and constraints — and a result that agrees with
the attached calculator's result in its energy, forces and stress fields
(present exactly when they were present).  Ensemble energies are the one
result field the decoder does not restore (see the counterexample). -/
theorem mongo_roundtrip_fields (H : Doc → String) (massOf : String → PyFloat)
    (spg : AtomicStructure → String) (user : String) (tc tm : Nat)
    (s : AtomicStructure) (c : CalcModel) (d : Doc)
    (h : mongo_doc H massOf spg user tc tm s (some c) [] = some d) :
    Option.map Prod.fst (mongo_doc_atoms d) = some s ∧
    Option.map (fun p => p.2.energy) (mongo_doc_atoms d) = some (calcResult c).energy ∧
    Option.map (fun p => p.2.forces) (mongo_doc_atoms d) = some (calcResult c).forces ∧
    Option.map (fun p => p.2.stress) (mongo_doc_atoms d) = some (calcResult c).stress := by
  rcases hres : resultsDoc c with _ | rd
  · rw [mongo_doc, mongo_doc_prehash, hres] at h
    simp at h
  · rw [mongo_doc, mongo_doc_prehash, hres] at h
    have hd : d = ([("atoms", BVal.obj (mongo_atoms_doc massOf spg s))]
        ++ [("calculator", BVal.obj (calcDoc c))]
        ++ [("results", BVal.obj rd), ("user", BVal.str user)])
        ++ [("inserted-hash", BVal.str (H ([("atoms", BVal.obj (mongo_atoms_doc massOf spg s))]
          ++ [("calculator", BVal.obj (calcDoc c))]
          ++ [("results", BVal.obj rd), ("user", BVal.str user)])))]
        ++ [("ctime", BVal.time tc), ("mtime", BVal.time tm)] := by
      simpa using h.symm
    subst hd
    rw [decode_encoded massOf spg user s (calcDoc c) rd _ tc tm]
    simp [resultEnergy_of_resultsDoc c rd hres, resultForces_of_resultsDoc c rd hres,
      resultStress_of_resultsDoc c rd hres]


/-- C1 counterexample: for a calculator carrying ensemble energies the
encoded document stores them, but decoding yields a result whose
ensemble-energy field is absent even though it was present in the
original result, so the decoded pair is not equal to `(s, r)` in every
field that was present in `r`. -/
theorem mongo_roundtrip_drops_ensemble :
    ((mongo_doc hashRender massOne spgP1 "user" 0 0 sFin (some calcSample) []).bind
      mongo_doc_atoms |>.map fun p => p.2.beefensemble) = some none ∧
    (calcResult calcSample).beefensemble = some [.fin 4, .fin 6] :=
  ⟨rfl, rfl⟩

/-- Witness for C1 (amended) at a concrete structure and calculator. -/
theorem mongo_roundtrip_fields_witness :
    Option.map Prod.fst (mongo_doc_atoms ((mongo_doc hashRender massOne spgP1 "user"
      0 0 sFin (some calcSample) []).getD [])) = some sFin ∧
    Option.map (fun p => p.2.energy) (mongo_doc_atoms ((mongo_doc hashRender massOne
      spgP1 "user" 0 0 sFin (some calcSample) []).getD [])) =
      some (calcResult calcSample).energy ∧
    Option.map (fun p => p.2.forces) (mongo_doc_atoms ((mongo_doc hashRender massOne
      spgP1 "user" 0 0 sFin (some calcSample) []).getD [])) =
      some (calcResult calcSample).forces ∧
    Option.map (fun p => p.2.stress) (mongo_doc_atoms ((mongo_doc hashRender massOne
      spgP1 "user" 0 0 sFin (some calcSample) []).getD [])) =
      some (calcResult calcSample).stress :=
  mongo_roundtrip_fields hashRender massOne spgP1 "user" 0 0 sFin calcSample _ rfl
